import Mathlib

/-!
Verification development for the Darwin evolution engine
(`bin/evolve.py`).  The Python program is shallowly embedded: YAML
documents become Lean structures, the on-disk skill store and
changelog directory become association lists, Python floats become
exact rationals, and the external collaborators (evaluator script,
compiler script) become explicit oracles.  Fallible Python code
(`int(...)` parsing, `json.loads`) is modelled with `Option`, where
`none` stands for a raised exception.
-/

namespace Darwin

/-- Model of Python `int(s)`: strip surrounding whitespace, accept an
optional sign followed by a nonempty run of decimal digits; any other
input raises (`none`).  (Underscore digit separators are not
modelled.) -/
def pyInt? (s : String) : Option Int :=
  match s.trim.toList with
  | [] => none
  | c :: cs =>
    let signDigits : Int × List Char :=
      if c = '-' then (-1, cs) else if c = '+' then (1, cs) else (1, c :: cs)
    if signDigits.2 ≠ [] ∧ signDigits.2.all Char.isDigit then
      some (signDigits.1 *
        signDigits.2.foldl (fun n ch => 10 * n + ((ch.toNat : Int) - 48)) 0)
    else none

/-- Model of Python `f"{q:.2f}"` fixed-point formatting with two
decimals (rounding of exact ties differs from IEEE-754 round-half-even
but no verified property depends on formatted digits). -/
def fmt2 (q : ℚ) : String :=
  let n : Int := (q * 100 + 1 / 2).floor
  let m : Nat := n.natAbs
  let frac : Nat := m % 100
  (if n < 0 then "-" else "") ++ toString (m / 100) ++ "." ++
    (if frac < 10 then "0" else "") ++ toString frac

/-- First index at which `sub` occurs in `s`, scanning left to right
(the character-level semantics of Python `str.find`). -/
def findSub (sub : List Char) : List Char → Option Nat
  | [] => if sub = [] then some 0 else none
  | c :: rest =>
    if sub.isPrefixOf (c :: rest) then some 0
    else (findSub sub rest).map (· + 1)

/-- Python `s.find(sub)` on strings, `none` for `-1`. -/
def strFind (s sub : String) : Option Nat :=
  findSub sub.toList s.toList

/-- Python `sub in s` substring test. -/
def containsSub (s sub : String) : Bool :=
  (strFind s sub).isSome

/-- Python slice `s[:n]` (character positions). -/
def strTake (s : String) (n : Nat) : String :=
  String.mk (s.toList.take n)

/-- Python slice `s[n:]` (character positions). -/
def strDrop (s : String) (n : Nat) : String :=
  String.mk (s.toList.drop n)

theorem toList_append (s t : String) : (s ++ t).toList = s.toList ++ t.toList :=
  rfl

theorem mk_toList (s : String) : String.mk s.toList = s :=
  rfl

/-! ## Data model (§3, §6 of the design) -/

/-- One record of a skill's `fitness_history`; a record without a
`mutation` key is modelled by `mutation = ""` (matching
`h.get('mutation', '')`). -/
structure HistoryRecord where
  timestamp : String
  mutation : String
deriving DecidableEq, Repr

/-- A persisted skill definition document.  `none` in an `Option`
field models an absent YAML key; an absent `modules` /
`fitness_history` key behaves exactly like an empty one in the code,
so those are plain lists. -/
structure SkillDef where
  description : Option String := none
  version : Option String := none
  modules : List (String × String) := []
  fitness_history : List HistoryRecord := []
  last_compiled : Option String := none
deriving DecidableEq, Repr

/-- The module registry document: module type ↦ (version label ↦
opaque prompt fragment), insertion-ordered as Python dicts are. -/
structure Registry where
  modules : List (String × List (String × String)) := []
deriving DecidableEq, Repr

/-- One per-skill row of an evaluation report. -/
structure EvalSkill where
  skill : String
  fitness : ℚ
  invocations : Nat
deriving DecidableEq, Repr

/-- An evaluation report (`{total_invocations, skills}` on success,
`{error, skills: []}` on evaluator failure). -/
structure Evaluation where
  error : Option String := none
  total_invocations : Nat := 0
  skills : List EvalSkill := []
  snapshot_time : Option String := none
deriving DecidableEq, Repr

/-- A transient candidate mutation produced by `suggest_mutations`. -/
structure Suggestion where
  type : String
  skill : String
  module : String
  from_version : String
  to_version : String
  reason : String
deriving DecidableEq, Repr

/-- The on-disk skill store (`~/.claude/darwin/skills/*.yaml`):
file name (skill name) ↦ parsed definition. -/
abbrev Store := List (String × SkillDef)

/-- Python dict assignment `d[k] = v` on an association list:
overwrite in place when the key exists, append otherwise.  Also models
writing a file into a directory. -/
def assocSet {β : Type} (l : List (String × β)) (k : String) (v : β) :
    List (String × β) :=
  if l.any (fun p => p.1 = k) then
    l.map (fun p => if p.1 = k then (k, v) else p)
  else l ++ [(k, v)]

/-! ## Fitness classifier (`THRESHOLDS`, `classify_skill`) -/

/-- The `THRESHOLDS` dict of `evolve.py`, as a function on its keys
(the `"failing"` entry is defined but never consulted by
`classify_skill`; keys outside the dict are never accessed by the
program). -/
def THRESHOLDS : String → ℚ
  | "top_performer" => 0.70
  | "healthy" => 0.50
  | "underperforming" => 0.35
  | "failing" => 0.20
  | _ => 0

/-- `classify_skill` of `evolve.py`: highest threshold first,
inclusive lower bounds. -/
def classify_skill (fitness : ℚ) : String :=
  if THRESHOLDS "top_performer" ≤ fitness then "top_performer"
  else if THRESHOLDS "healthy" ≤ fitness then "healthy"
  else if THRESHOLDS "underperforming" ≤ fitness then "underperforming"
  else "failing"

/-- Rank of a classification band, for stating monotonicity (larger =
better). -/
def bandRank : String → Nat
  | "top_performer" => 3
  | "healthy" => 2
  | "underperforming" => 1
  | _ => 0

/-- `get_module_variants` of `evolve.py`: the version labels
registered for a module type, in registry order. -/
def get_module_variants (registry : Registry) (module_type : String) :
    List String :=
  ((registry.modules.lookup module_type).getD []).map Prod.fst

/-- `get_skill_fitness` of `evolve.py`: fitness of the first matching
skill row of an evaluation report, if any. -/
def get_skill_fitness (evaluation : Evaluation) (skill_name : String) :
    Option ℚ :=
  (evaluation.skills.find? (fun s => s.skill = skill_name)).map (·.fitness)

/-! ## History tracker (`get_recently_tried_variants`) -/

/-- Loop body of `get_recently_tried_variants`: parse one history
record's descriptor `"<module_type>: <old> → <new>"` and, when it is
well formed (exactly one arrow; module part with exactly one colon),
add `"<module_type>:<to_version>"` to the set; otherwise leave the
set unchanged. -/
def rtStep (recently_tried : Finset String) (h : HistoryRecord) : Finset String :=
  let mutation_str := h.mutation
  if containsSub mutation_str "→" then
    match mutation_str.splitOn "→" with
    | [front, back] =>
      match front.splitOn ":" with
      | [module_name, _] =>
        insert (module_name.trim ++ ":" ++ back.trim) recently_tried
      | _ => recently_tried
    | _ => recently_tried
  else recently_tried

/-- `get_recently_tried_variants` of `evolve.py`: the
`(module_type, to_version)` keys attempted in the most recent 10
history records (Python `[-10:]`). -/
def get_recently_tried_variants (skill_def : SkillDef) : Finset String :=
  let recent_history :=
    skill_def.fitness_history.drop (skill_def.fitness_history.length - 10)
  recent_history.foldl rtStep ∅

/-- Modelled from the spec (§4.2): parse one descriptor
`"<module_type>: <old_version> → <new_version>"` into its
`"<module_type>:<new_version>"` key, `none` for a malformed
descriptor (missing arrow separator or malformed module part). -/
def parseVariantKey (s : String) : Option String :=
  if containsSub s "→" then
    match s.splitOn "→" with
    | [front, back] =>
      match front.splitOn ":" with
      | [module_name, _] => some (module_name.trim ++ ":" ++ back.trim)
      | _ => none
    | _ => none
  else none

/-- Modelled from the spec (§4.2): the recently-tried set is exactly
the keys of the well-formed descriptors among the most recent 10
history records. -/
def recentKeysSpec (skill_def : SkillDef) : Finset String :=
  ((skill_def.fitness_history.drop (skill_def.fitness_history.length - 10)).filterMap
    (fun h => parseVariantKey h.mutation)).toFinset

/-! ## Suggestion engine (`suggest_mutations`) -/

/-- Inner loop of the absorb pass: one `(module_type, top_version)`
entry of a donor's module selection. -/
def absorbInner (skill_name : String) (current_modules : List (String × String))
    (recently_tried : Finset String) (top : EvalSkill)
    (acc : List Suggestion) (p : String × String) : List Suggestion :=
  if (p.1 ++ ":" ++ p.2) ∈ recently_tried then acc
  else if current_modules.lookup p.1 = some p.2 then acc
  else acc ++ [{ type := "absorb", skill := skill_name, module := p.1,
                 from_version := (current_modules.lookup p.1).getD "unknown",
                 to_version := p.2,
                 reason := "Absorb from top performer /" ++ top.skill ++
                   " (fitness: " ++ fmt2 top.fitness ++ ")" }]

/-- Outer loop of the absorb pass: one top performer; its skill file
is loaded from the store and skipped when absent. -/
def absorbStep (skill_name : String) (current_modules : List (String × String))
    (recently_tried : Finset String) (store : Store)
    (acc : List Suggestion) (top : EvalSkill) : List Suggestion :=
  match store.lookup top.skill with
  | none => acc
  | some top_def =>
    top_def.modules.foldl
      (absorbInner skill_name current_modules recently_tried top) acc

/-- The `mutate` suggestion record built by the mutate pass. -/
def mkMutateSugg (skill_name : String) (p : String × String) (variant : String) :
    Suggestion :=
  { type := "mutate", skill := skill_name, module := p.1,
    from_version := p.2, to_version := variant,
    reason := "Try alternative variant (not recently tried)" }

/-- Inner loop of the mutate pass: one registered variant of the
module type `p.1` currently at version `p.2`.  The already-suggested
check scans the whole accumulated list, as the source does. -/
def mutateInner (skill_name : String) (recently_tried : Finset String)
    (p : String × String) (acc : List Suggestion) (variant : String) :
    List Suggestion :=
  if (p.1 ++ ":" ++ variant) ∈ recently_tried then acc
  else if variant = p.2 then acc
  else if acc.any (fun s => s.module == p.1 && s.to_version == variant) then acc
  else acc ++ [mkMutateSugg skill_name p variant]

/-- Outer loop of the mutate pass: one `(module_type, current_version)`
entry of the skill's module selection. -/
def mutateStep (skill_name : String) (registry : Registry)
    (recently_tried : Finset String) (acc : List Suggestion)
    (p : String × String) : List Suggestion :=
  (get_module_variants registry p.1).foldl
    (mutateInner skill_name recently_tried p) acc

/-- `suggest_mutations` of `evolve.py`.  `store` is the skill
directory, from which top performers' definitions are loaded. -/
def suggest_mutations (skill_name : String) (skill_def : SkillDef)
    (fitness : ℚ) (registry : Registry) (top_performers : List EvalSkill)
    (store : Store) : List Suggestion :=
  let current_modules := skill_def.modules
  let classification := classify_skill fitness
  let recently_tried := get_recently_tried_variants skill_def
  if classification = "healthy" ∨ classification = "top_performer" then []
  else
    let afterAbsorb := top_performers.foldl
      (absorbStep skill_name current_modules recently_tried store) []
    current_modules.foldl
      (mutateStep skill_name registry recently_tried) afterAbsorb

/-- The suggestion `cmd_apply` selects for application
(`evolve.py` lines 421–423): head of the absorb subset when
non-empty, else head of the whole list. -/
def selectTop (suggestions : List Suggestion) : Option Suggestion :=
  match suggestions.filter (fun s => s.type == "absorb") with
  | a :: _ => some a
  | [] => suggestions.head?

/-- Modelled from the spec (§4.3 mutate pass): whether the mutate pass
may propose `variant` for module entry `p`, deduplicating only against
the absorb-pass list `A`. -/
def specAllowed (recently_tried : Finset String) (A : List Suggestion)
    (p : String × String) (variant : String) : Bool :=
  !decide ((p.1 ++ ":" ++ variant) ∈ recently_tried) &&
  !decide (variant = p.2) &&
  !(A.any (fun s => s.module == p.1 && s.to_version == variant))

/-- Modelled from the spec (§4.3 mutate pass): for each module type in
use, every registered variant other than the current one, excluding
recently-tried pairs and pairs already absorbed. -/
def mutateSpecList (skill_name : String) (registry : Registry)
    (recently_tried : Finset String) (A : List Suggestion) :
    List (String × String) → List Suggestion
  | [] => []
  | p :: cm =>
    ((get_module_variants registry p.1).filter
        (specAllowed recently_tried A p)).map (mkMutateSugg skill_name p) ++
      mutateSpecList skill_name registry recently_tried A cm

/-! ## Mutation applier (`apply_mutation`) -/

/-- `apply_mutation` of `evolve.py`.  Result: `none` when Python would
raise (non-integer trailing version component), `some (false, store)`
when the skill file does not exist, `some (true, store')` on success,
with `store'` the rewritten skill directory. -/
def apply_mutation (store : Store) (skill_name module_type new_version : String)
    (now : String) : Option (Bool × Store) :=
  match store.lookup skill_name with
  | none => some (false, store)
  | some skill_def =>
    let old_version := (skill_def.modules.lookup module_type).getD "unknown"
    let modules' := assocSet skill_def.modules module_type new_version
    let version := skill_def.version.getD "1.0.0"
    let parts := version.splitOn "."
    match pyInt? (parts.getLastD "") with
    | none => none
    | some n =>
      let version' := String.intercalate "." (parts.dropLast ++ [toString (n + 1)])
      let skill_def' : SkillDef :=
        { skill_def with
            modules := modules'
            version := some version'
            fitness_history := skill_def.fitness_history ++
              [{ timestamp := now,
                 mutation := module_type ++ ": " ++ old_version ++ " → " ++
                   new_version }] }
      some (true, assocSet store skill_name skill_def')

/-! ## Changelog recorder (`write_changelog`) -/

/-- The header synthesized when no prior changelog exists. -/
def changelogHeader (skill_name : String) : String :=
  "# /" ++ skill_name ++ " Evolution Changelog\n\n"

/-- The optional `" → new (±delta)"` fitness suffix of an entry. -/
def fitnessDelta (new_fitness : Option ℚ) (old_fitness : ℚ) : String :=
  match new_fitness with
  | some nf =>
    " → " ++ fmt2 nf ++ " (" ++
      (if (0 : ℚ) ≤ nf - old_fitness then "+" else "") ++
      fmt2 (nf - old_fitness) ++ ")"
  | none => ""

/-- The per-mutation bullet lines of an entry. -/
def mutationLines (mutations : List Suggestion) : String :=
  mutations.foldl
    (fun b m =>
      b ++ "- `" ++ m.module ++ "`: " ++ m.from_version ++ " → " ++
        m.to_version ++ " (" ++ m.type ++ ")\n  - Reason: " ++ m.reason ++ "\n")
    ""

/-- One rendered changelog entry (the string built by successive `+=`
in `write_changelog`, written as one concatenation). -/
def changelogEntry (version timestamp : String) (mutations : List Suggestion)
    (old_fitness : ℚ) (new_fitness : Option ℚ) : String :=
  "\n## v" ++ version ++ " (" ++ timestamp ++ ")\n\n" ++
    "**Fitness:** " ++ fmt2 old_fitness ++ fitnessDelta new_fitness old_fitness ++
    "\n\n" ++ "**Mutations:**\n" ++ mutationLines mutations ++ "\n---\n"

/-- The version string `write_changelog` reads back from the skill
store (`'?.?.?'` when the file or the key is absent). -/
def versionIn (store : Store) (skill_name : String) : String :=
  match store.lookup skill_name with
  | some d => d.version.getD "?.?.?"
  | none => "?.?.?"

/-- `write_changelog` of `evolve.py`, as a function from the previous
changelog document (`none` when no file exists) to the new one.
Entries are prepended at the first occurrence of `"\n## "`, or
appended when it does not occur. -/
def write_changelog (existing : Option String) (skill_name : String)
    (store : Store) (mutations : List Suggestion) (old_fitness : ℚ)
    (new_fitness : Option ℚ) (timestamp : String) : String :=
  let content := match existing with
    | some c => c
    | none => changelogHeader skill_name
  let entry := changelogEntry (versionIn store skill_name) timestamp mutations
    old_fitness new_fitness
  match strFind content "\n## " with
  | none => content ++ entry
  | some i => strTake content i ++ entry ++ strDrop content i

/-! ## External collaborators and the orchestrators
(`run_evaluate`, `recompile_skill`, `cmd_apply`, `cmd_cycle`) -/

/-- One invocation of the external `evaluate.sh`: exit status, stderr,
and the evaluation parsed from stdout (`none` when `json.loads` would
raise). -/
structure EvalRun where
  exitOk : Bool
  stderr : String
  parsed : Option Evaluation
deriving Repr

/-- `run_evaluate` of `evolve.py`: non-zero exit becomes an
error-report; otherwise the stdout is parsed, `none` modelling a
raised `json.JSONDecodeError`. -/
def run_evaluate (r : EvalRun) : Option Evaluation :=
  if r.exitOk then r.parsed
  else some { error := some r.stderr, total_invocations := 0, skills := [] }

/-- `recompile_skill` of `evolve.py`, with the external compiler as an
oracle from skill name to exit-zero success. -/
def recompile_skill (compileOk : String → Bool) (skill_name : String) : Bool :=
  compileOk skill_name

/-- Per-skill events the orchestrator reports to the operator
(abstraction of its `print` diagnostics). -/
inductive SkillOutcome where
  | applied (skill : String) (newFitness : ℚ)
  | recompileFailed (skill : String)
  | mutationFailed (skill : String)
deriving DecidableEq, Repr

/-- The persistent and observable state an orchestrator run touches:
the skill store, the changelog directory, the weekly snapshot
directory, the list of compiler invocations made, a counter of
evaluator invocations made, and the reported per-skill outcomes. -/
structure World where
  store : Store
  changelogs : List (String × String)
  snapshots : List (String × Evaluation)
  compileCalls : List String
  evalCalls : Nat
  log : List SkillOutcome
deriving DecidableEq, Repr

/-- The fixed environment of a run: the module registry, the external
evaluator (indexed by invocation count), the external compiler, the
current UTC timestamp, and the ISO week key. -/
structure Env where
  registry : Registry
  evalOracle : Nat → EvalRun
  compileOk : String → Bool
  now : String
  week : String

/-- One `run_evaluate()` call inside an orchestrator: `Except.error`
carries the world at the moment an unparseable evaluator output
raises. -/
def runEvalStep (env : Env) (w : World) : Except World (Evaluation × World) :=
  let r := env.evalOracle w.evalCalls
  let w' := { w with evalCalls := w.evalCalls + 1 }
  match run_evaluate r with
  | none => .error w'
  | some e => .ok (e, w')

/-- One iteration of the `cmd_apply` loop over evaluated skills
(`evolve.py` lines 401–467). -/
def applyStep (env : Env) (top_performers : List EvalSkill) (w : World)
    (skill_data : EvalSkill) : Except World World :=
  let classification := classify_skill skill_data.fitness
  if classification = "underperforming" ∨ classification = "failing" then
    match w.store.lookup skill_data.skill with
    | none => .ok w
    | some skill_def =>
      let suggestions := suggest_mutations skill_data.skill skill_def
        skill_data.fitness env.registry top_performers w.store
      if suggestions = [] then .ok w
      else
        match selectTop suggestions with
        | none => .ok w
        | some suggestion =>
          match apply_mutation w.store skill_data.skill suggestion.module
              suggestion.to_version env.now with
          | none => .error w
          | some (false, store') =>
            .ok { w with store := store',
                         log := w.log ++ [.mutationFailed skill_data.skill] }
          | some (true, store') =>
            let w1 := { w with store := store',
                               compileCalls := w.compileCalls ++ [skill_data.skill] }
            if recompile_skill env.compileOk skill_data.skill then
              match runEvalStep env w1 with
              | .error wc => .error wc
              | .ok (new_evaluation, w2) =>
                let new_fitness :=
                  (get_skill_fitness new_evaluation skill_data.skill).getD
                    skill_data.fitness
                let newContent := write_changelog
                  (w2.changelogs.lookup skill_data.skill) skill_data.skill
                  w2.store [suggestion] skill_data.fitness (some new_fitness)
                  env.now
                .ok { w2 with
                        changelogs := assocSet w2.changelogs skill_data.skill
                          newContent,
                        log := w2.log ++ [.applied skill_data.skill new_fitness] }
            else
              .ok { w1 with log := w1.log ++ [.recompileFailed skill_data.skill] }
  else .ok w

/-- The `cmd_apply` loop over the evaluated skills, stopping only when
an exception propagates. -/
def applyLoop (env : Env) (top_performers : List EvalSkill) :
    World → List EvalSkill → Except World World
  | w, [] => .ok w
  | w, sd :: rest =>
    match applyStep env top_performers w sd with
    | .error wc => .error wc
    | .ok w' => applyLoop env top_performers w' rest

/-- `cmd_apply` of `evolve.py`: evaluate, bail out on an error report,
else apply the top suggestion to every underperforming or failing
skill in turn. -/
def cmd_apply (env : Env) (w : World) : Except World World :=
  match runEvalStep env w with
  | .error wc => .error wc
  | .ok (evaluation, w1) =>
    if evaluation.error.isSome then .ok w1
    else
      let top_performers := evaluation.skills.filter
        (fun s => classify_skill s.fitness = "top_performer")
      applyLoop env top_performers w1 evaluation.skills

/-- `cmd_cycle` of `evolve.py`: evaluate, abort on an error report,
snapshot the evaluation by ISO week, then run the apply pass when any
skill is underperforming or failing. -/
def cmd_cycle (env : Env) (w : World) : Except World World :=
  match runEvalStep env w with
  | .error wc => .error wc
  | .ok (evaluation, w1) =>
    if evaluation.error.isSome then .ok w1
    else
      let snap := { evaluation with snapshot_time := some env.now }
      let w2 := { w1 with snapshots := assocSet w1.snapshots env.week snap }
      let under := evaluation.skills.filter
        (fun s => classify_skill s.fitness = "underperforming")
      let failing := evaluation.skills.filter
        (fun s => classify_skill s.fitness = "failing")
      if under ≠ [] ∨ failing ≠ [] then cmd_apply env w2
      else .ok w2

/-! ## Concrete fixtures (used to exercise the verified claims) -/

/-- A skill whose history holds two well-formed descriptors and one
malformed one (the spec's History Tracker test vector). -/
def sampleHistorySkill : SkillDef :=
  { fitness_history := [⟨"t1", "validation: v1 → v2"⟩,
                        ⟨"t2", "input: v1 → v3"⟩,
                        ⟨"t3", "broken"⟩] }

/-- Registry offering `validation: v1, v2, v3` (the spec's end-to-end
scenario). -/
def sampleReg : Registry :=
  ⟨[("validation", [("v1", "a"), ("v2", "b"), ("v3", "c")])]⟩

/-- Underperforming skill `writer` at `validation: v2`. -/
def sampleWriter : SkillDef :=
  { version := some "1.2.3", modules := [("validation", "v2")] }

/-- Top performer `reviewer` at `validation: v3`. -/
def sampleReviewer : SkillDef :=
  { version := some "2.0.0", modules := [("validation", "v3")] }

/-- Skill directory holding `writer` and `reviewer`. -/
def sampleStore : Store :=
  [("writer", sampleWriter), ("reviewer", sampleReviewer)]

/-- `reviewer` as an evaluated top performer (fitness 0.8). -/
def sampleTops : List EvalSkill := [⟨"reviewer", mkRat 8 10, 12⟩]

/-- A `writer` variant that already tried `validation: v1` recently. -/
def sampleWriterTried : SkillDef :=
  { version := some "1.2.3", modules := [("validation", "v2")],
    fitness_history := [⟨"t0", "validation: v2 → v1"⟩] }

/-- The spec's Mutation Applier test subject: version `1.2.3`,
`validation` at `v3`. -/
def sampleVet : SkillDef :=
  { version := some "1.2.3", modules := [("validation", "v3")] }

/-- A store holding only `sampleVet` under the name `writer`. -/
def sampleVetStore : Store := [("writer", sampleVet)]

/-- The absorb suggestion of the spec's end-to-end scenario. -/
def sampleSugg : Suggestion :=
  { type := "absorb", skill := "writer", module := "validation",
    from_version := "v2", to_version := "v3",
    reason := "Absorb from top performer /reviewer (fitness: 0.80)" }

/-- An initial orchestrator world over `sampleStore`. -/
def sampleWorld : World :=
  { store := sampleStore, changelogs := [], snapshots := [],
    compileCalls := [], evalCalls := 0, log := [] }

/-- An environment whose evaluator always fails with a non-zero
exit. -/
def sampleEnvEvalFail : Env :=
  { registry := sampleReg, evalOracle := fun _ => ⟨false, "boom", none⟩,
    compileOk := fun _ => true, now := "T0", week := "2025-W41" }

/-- An environment whose evaluator succeeds but whose compiler always
fails. -/
def sampleEnvCompileFail : Env :=
  { registry := sampleReg,
    evalOracle := fun _ => ⟨true, "", some {}⟩,
    compileOk := fun _ => false, now := "T0", week := "2025-W41" }

/-- `sampleStore` after applying `sampleSugg` to `writer` at `T0`. -/
def sampleStoreMut : Store :=
  [("writer",
    { version := some "1.2.4", modules := [("validation", "v3")],
      fitness_history := [⟨"T0", "validation: v2 → v3"⟩] }),
   ("reviewer", sampleReviewer)]

/-! ## Verified claims -/

theorem thr_top : THRESHOLDS "top_performer" = 0.70 := rfl

theorem thr_healthy : THRESHOLDS "healthy" = 0.50 := rfl

theorem thr_under : THRESHOLDS "underperforming" = 0.35 := rfl

theorem thr_failing : THRESHOLDS "failing" = 0.20 := rfl

/-- C2: `classify_skill` maps a fitness in [0,1] to exactly one of
four bands with inclusive lower bounds evaluated highest-first
(boundary values as listed), and is monotonic: higher fitness never
yields a lower-ranked band. -/
theorem c2_classifier_bands :
    (classify_skill 0.70 = "top_performer" ∧ classify_skill 0.6999 = "healthy" ∧
     classify_skill 0.50 = "healthy" ∧ classify_skill 0.35 = "underperforming" ∧
     classify_skill 0.3499 = "failing" ∧ classify_skill 0.0 = "failing")
    ∧ (∀ q : ℚ, 0 ≤ q → q ≤ 1 →
        ((classify_skill q = "top_performer" ↔ 0.70 ≤ q) ∧
         (classify_skill q = "healthy" ↔ 0.50 ≤ q ∧ q < 0.70) ∧
         (classify_skill q = "underperforming" ↔ 0.35 ≤ q ∧ q < 0.50) ∧
         (classify_skill q = "failing" ↔ q < 0.35)))
    ∧ (∀ a b : ℚ, 0 ≤ a → a ≤ 1 → 0 ≤ b → b ≤ 1 → a ≤ b →
        bandRank (classify_skill a) ≤ bandRank (classify_skill b)) := by
  refine ⟨⟨by with_unfolding_all rfl, by with_unfolding_all rfl,
           by with_unfolding_all rfl, by with_unfolding_all rfl,
           by with_unfolding_all rfl, by with_unfolding_all rfl⟩, ?_, ?_⟩
  · intro q _ _
    unfold classify_skill
    rw [thr_top, thr_healthy, thr_under]
    split_ifs with h1 h2 h3
    · exact ⟨by simp [h1],
        iff_of_false (by decide) (fun hc => absurd h1 (not_le.mpr hc.2)),
        iff_of_false (by decide) (fun hc => absurd hc.2 (by linarith)),
        iff_of_false (by decide) (fun hc => absurd hc (by linarith))⟩
    · exact ⟨iff_of_false (by decide) h1,
        iff_of_true rfl ⟨h2, not_le.mp h1⟩,
        iff_of_false (by decide) (fun hc => absurd hc.2 (not_lt.mpr h2)),
        iff_of_false (by decide) (fun hc => absurd hc (by linarith))⟩
    · exact ⟨iff_of_false (by decide) h1,
        iff_of_false (by decide) (fun hc => h2 hc.1),
        iff_of_true rfl ⟨h3, not_le.mp h2⟩,
        iff_of_false (by decide) (fun hc => absurd hc (not_lt.mpr h3))⟩
    · exact ⟨iff_of_false (by decide) h1,
        iff_of_false (by decide) (fun hc => h2 hc.1),
        iff_of_false (by decide) (fun hc => h3 hc.1),
        iff_of_true rfl (not_le.mp h3)⟩
  · intro a b _ _ _ _ hab
    unfold classify_skill
    rw [thr_top, thr_healthy, thr_under]
    split_ifs <;> simp_all [bandRank] <;> linarith

/-- C2 witness: monotonicity applied at 0.2 ≤ 0.6. -/
theorem c2_classifier_bands_witness :
    bandRank (classify_skill 0.2) ≤ bandRank (classify_skill 0.6) :=
  c2_classifier_bands.2.2 0.2 0.6 (by norm_num) (by norm_num) (by norm_num)
    (by norm_num) (by norm_num)

/-- C10: `classify_skill` is total on every rational input: it always
returns one of the four labels, every fitness below 0.35 (including
below the defined-but-unused 0.20 `"failing"` threshold, and every
negative fitness) yields `"failing"`, and every fitness above 1 yields
`"top_performer"`. -/
theorem c10_classifier_total (q : ℚ) :
    (classify_skill q = "top_performer" ∨ classify_skill q = "healthy" ∨
     classify_skill q = "underperforming" ∨ classify_skill q = "failing")
    ∧ (q < 0.35 → classify_skill q = "failing")
    ∧ (q < THRESHOLDS "failing" → classify_skill q = "failing")
    ∧ (q < 0 → classify_skill q = "failing")
    ∧ (1 < q → classify_skill q = "top_performer") := by
  unfold classify_skill
  rw [thr_top, thr_healthy, thr_under, thr_failing]
  split_ifs with h1 h2 h3 <;>
    refine ⟨by simp, ?_, ?_, ?_, ?_⟩ <;> intro h <;>
    first
      | rfl
      | (exfalso; linarith)

/-- C10 witness: totality and the failing band applied at -1. -/
theorem c10_classifier_total_witness : classify_skill (-1) = "failing" :=
  (c10_classifier_total (-1)).2.2.2.1 (by norm_num)

/-- C5: a skill whose fitness classifies as healthy or top performer
receives no suggestions, whatever the registry, top-performer list,
history and store contents. -/
theorem c5_successful_never_mutated (skill_name : String) (skill_def : SkillDef)
    (fitness : ℚ) (registry : Registry) (top_performers : List EvalSkill)
    (store : Store)
    (h : classify_skill fitness = "healthy" ∨
         classify_skill fitness = "top_performer") :
    suggest_mutations skill_name skill_def fitness registry top_performers
      store = [] := by
  simp only [suggest_mutations]
  rw [if_pos h]

/-- C5 witness: a healthy (fitness 0.6) `writer` gets no suggestions
even with a donor and spare registry variants available. -/
theorem c5_successful_never_mutated_witness :
    suggest_mutations "writer" sampleWriter (mkRat 6 10) sampleReg sampleTops
      sampleStore = [] :=
  c5_successful_never_mutated "writer" sampleWriter (mkRat 6 10) sampleReg
    sampleTops sampleStore (Or.inl (by with_unfolding_all rfl))

theorem rtStep_parse (s : Finset String) (h : HistoryRecord) :
    rtStep s h = match parseVariantKey h.mutation with
      | some k => insert k s
      | none => s := by
  unfold rtStep parseVariantKey
  by_cases hc : containsSub h.mutation "→"
  · simp only [if_pos hc]
    rcases hsp : h.mutation.splitOn "→" with _ | ⟨front, _ | ⟨back, _ | _⟩⟩
    · simp [hsp]
    · simp [hsp]
    · rcases hmp : front.splitOn ":" with _ | ⟨m, _ | ⟨o, _ | _⟩⟩ <;>
        simp [hsp, hmp]
    · simp [hsp]
  · simp only [if_neg hc]

theorem foldl_rtStep (l : List HistoryRecord) (s : Finset String) :
    l.foldl rtStep s =
      s ∪ (l.filterMap (fun h => parseVariantKey h.mutation)).toFinset := by
  induction l generalizing s with
  | nil => simp
  | cons h t ih =>
    rw [List.foldl_cons, ih, rtStep_parse]
    cases hp : parseVariantKey h.mutation <;>
      simp [hp, List.filterMap_cons, Finset.insert_union, Finset.union_insert]

/-- C4: the recently-tried set is exactly the set of
`"<module_type>:<to_version>"` keys parsed from the well-formed
descriptors among the most recent 10 history records; malformed
descriptors contribute nothing; on the spec's example history the
result is `{"validation:v2", "input:v3"}` with the `"broken"` record
contributing nothing. -/
theorem c4_recently_tried_exact :
    (∀ d : SkillDef, get_recently_tried_variants d = recentKeysSpec d)
    ∧ get_recently_tried_variants sampleHistorySkill =
        {"validation:v2", "input:v3"} := by
  constructor
  · intro d
    simp only [get_recently_tried_variants, recentKeysSpec]
    rw [foldl_rtStep]
    simp
  · with_unfolding_all decide

theorem mem_foldl_of_step {α β : Type} (f : List α → β → List α) (P : α → Prop)
    (hstep : ∀ acc b s, s ∈ f acc b → s ∈ acc ∨ P s) :
    ∀ (l : List β) (acc : List α) (s : α), s ∈ l.foldl f acc → s ∈ acc ∨ P s := by
  intro l
  induction l with
  | nil => exact fun acc s hs => Or.inl hs
  | cons b t ih =>
    intro acc s hs
    rw [List.foldl_cons] at hs
    rcases ih (f acc b) s hs with h | h
    · exact hstep acc b s h
    · exact Or.inr h

theorem mem_mutateInner (skill_name : String) (recently_tried : Finset String)
    (p : String × String) (acc : List Suggestion) (v : String) (s : Suggestion)
    (hs : s ∈ mutateInner skill_name recently_tried p acc v) :
    s ∈ acc ∨ (s.module ++ ":" ++ s.to_version) ∉ recently_tried := by
  unfold mutateInner at hs
  split_ifs at hs with h1 h2 h3
  · exact Or.inl hs
  · exact Or.inl hs
  · exact Or.inl hs
  · rcases List.mem_append.mp hs with h | h
    · exact Or.inl h
    · right
      rcases List.mem_singleton.mp h with rfl
      simpa [mkMutateSugg] using h1

theorem mem_mutateStep (skill_name : String) (registry : Registry)
    (recently_tried : Finset String) (acc : List Suggestion)
    (p : String × String) (s : Suggestion)
    (hs : s ∈ mutateStep skill_name registry recently_tried acc p) :
    s ∈ acc ∨ (s.module ++ ":" ++ s.to_version) ∉ recently_tried := by
  unfold mutateStep at hs
  exact mem_foldl_of_step (mutateInner skill_name recently_tried p) _
    (fun acc2 v t ht => mem_mutateInner skill_name recently_tried p acc2 v t ht)
    _ _ _ hs

theorem mem_absorbInner (skill_name : String)
    (current_modules : List (String × String)) (recently_tried : Finset String)
    (top : EvalSkill) (acc : List Suggestion) (p : String × String)
    (s : Suggestion)
    (hs : s ∈ absorbInner skill_name current_modules recently_tried top acc p) :
    s ∈ acc ∨ (s.module ++ ":" ++ s.to_version) ∉ recently_tried := by
  unfold absorbInner at hs
  split_ifs at hs with h1 h2
  · exact Or.inl hs
  · exact Or.inl hs
  · rcases List.mem_append.mp hs with h | h
    · exact Or.inl h
    · right
      rcases List.mem_singleton.mp h with rfl
      simpa using h1

theorem mem_absorbStep (skill_name : String)
    (current_modules : List (String × String)) (recently_tried : Finset String)
    (store : Store) (acc : List Suggestion) (top : EvalSkill) (s : Suggestion)
    (hs : s ∈ absorbStep skill_name current_modules recently_tried store acc top) :
    s ∈ acc ∨ (s.module ++ ":" ++ s.to_version) ∉ recently_tried := by
  unfold absorbStep at hs
  cases hl : store.lookup top.skill with
  | none => rw [hl] at hs; exact Or.inl hs
  | some top_def =>
    rw [hl] at hs
    exact mem_foldl_of_step
      (absorbInner skill_name current_modules recently_tried top) _
      (fun acc2 p t ht =>
        mem_absorbInner skill_name current_modules recently_tried top acc2 p t ht)
      _ _ _ hs

/-- C3: no suggestion produced by either pass of the Suggestion Engine
carries a `(module_type, to_version)` pair whose key is in the
recently-tried set computed from the skill's history. -/
theorem c3_oscillation_guard (skill_name : String) (skill_def : SkillDef)
    (fitness : ℚ) (registry : Registry) (top_performers : List EvalSkill)
    (store : Store) (s : Suggestion)
    (hs : s ∈ suggest_mutations skill_name skill_def fitness registry
      top_performers store) :
    (s.module ++ ":" ++ s.to_version) ∉ get_recently_tried_variants skill_def := by
  simp only [suggest_mutations] at hs
  by_cases hc : classify_skill fitness = "healthy" ∨
      classify_skill fitness = "top_performer"
  · rw [if_pos hc] at hs
    exact absurd hs (List.not_mem_nil s)
  · rw [if_neg hc] at hs
    rcases mem_foldl_of_step
        (mutateStep skill_name registry (get_recently_tried_variants skill_def)) _
        (fun acc p t ht => mem_mutateStep skill_name registry _ acc p t ht)
        _ _ _ hs with h | h
    · rcases mem_foldl_of_step
          (absorbStep skill_name skill_def.modules
            (get_recently_tried_variants skill_def) store) _
          (fun acc top t ht => mem_absorbStep skill_name skill_def.modules _
            store acc top t ht)
          _ _ _ h with h2 | h2
      · exact absurd h2 (List.not_mem_nil s)
      · exact h2
    · exact h

/-- C3 witness: the absorb suggestion produced for a failing `writer`
that recently tried `validation:v1` has a key outside the
recently-tried set. -/
theorem c3_oscillation_guard_witness :
    ("validation" ++ ":" ++ "v3") ∉
      get_recently_tried_variants sampleWriterTried :=
  c3_oscillation_guard "writer" sampleWriterTried (mkRat 3 10) sampleReg
    sampleTops sampleStore
    { type := "absorb", skill := "writer", module := "validation",
      from_version := "v2", to_version := "v3",
      reason := "Absorb from top performer /reviewer (fitness: 0.80)" }
    (by with_unfolding_all decide)

/-- C1: for an existing skill whose trailing version component parses
as an integer (the data model's dotted-integer invariant),
`apply_mutation` succeeds and rewrites the persisted definition so
that exactly three things change: the module selection, the version
(trailing component incremented, earlier components untouched), and
one appended history record whose descriptor is exactly
`"<module_type>: <old_version> → <new_version>"` with `old_version`
defaulting to `"unknown"`. -/
theorem c1_apply_mutation_rewrites (store : Store)
    (skill_name module_type new_version now : String) (d : SkillDef)
    (v : String) (k : Int)
    (hd : store.lookup skill_name = some d)
    (hv : d.version = some v)
    (hk : pyInt? ((v.splitOn ".").getLastD "") = some k) :
    apply_mutation store skill_name module_type new_version now =
      some (true, assocSet store skill_name
        { d with
            modules := assocSet d.modules module_type new_version
            version := some (String.intercalate "."
              ((v.splitOn ".").dropLast ++ [toString (k + 1)]))
            fitness_history := d.fitness_history ++
              [{ timestamp := now,
                 mutation := module_type ++ ": " ++
                   ((d.modules.lookup module_type).getD "unknown") ++ " → " ++
                   new_version }] }) := by
  simp only [apply_mutation, hd, hv, Option.getD_some, hk]

/-- C1 witness: the spec's test vector — `validation` at `v3`,
version `1.2.3`, mutated to `v4` — yields version `1.2.4` and the
descriptor `"validation: v3 → v4"`. -/
theorem c1_apply_mutation_rewrites_witness :
    apply_mutation sampleVetStore "writer" "validation" "v4" "T0" =
      some (true, assocSet sampleVetStore "writer"
        { sampleVet with
            modules := assocSet sampleVet.modules "validation" "v4"
            version := some (String.intercalate "."
              (("1.2.3".splitOn ".").dropLast ++ [toString ((3 : Int) + 1)]))
            fitness_history := sampleVet.fitness_history ++
              [{ timestamp := "T0",
                 mutation := "validation" ++ ": " ++
                   ((sampleVet.modules.lookup "validation").getD "unknown") ++
                   " → " ++ "v4" }] }) :=
  c1_apply_mutation_rewrites sampleVetStore "writer" "validation" "v4" "T0"
    sampleVet "1.2.3" 3 (by with_unfolding_all decide) rfl
    (by with_unfolding_all decide)

theorem mem_absorbInner_type (skill_name : String)
    (current_modules : List (String × String)) (recently_tried : Finset String)
    (top : EvalSkill) (acc : List Suggestion) (p : String × String)
    (s : Suggestion)
    (hs : s ∈ absorbInner skill_name current_modules recently_tried top acc p) :
    s ∈ acc ∨ s.type = "absorb" := by
  unfold absorbInner at hs
  split_ifs at hs with h1 h2
  · exact Or.inl hs
  · exact Or.inl hs
  · rcases List.mem_append.mp hs with h | h
    · exact Or.inl h
    · rcases List.mem_singleton.mp h with rfl
      exact Or.inr rfl

theorem mem_absorbStep_type (skill_name : String)
    (current_modules : List (String × String)) (recently_tried : Finset String)
    (store : Store) (acc : List Suggestion) (top : EvalSkill) (s : Suggestion)
    (hs : s ∈ absorbStep skill_name current_modules recently_tried store acc top) :
    s ∈ acc ∨ s.type = "absorb" := by
  unfold absorbStep at hs
  cases hl : store.lookup top.skill with
  | none => rw [hl] at hs; exact Or.inl hs
  | some top_def =>
    rw [hl] at hs
    exact mem_foldl_of_step
      (absorbInner skill_name current_modules recently_tried top) _
      (fun acc2 p t ht =>
        mem_absorbInner_type skill_name current_modules recently_tried top
          acc2 p t ht)
      _ _ _ hs

theorem absorbPass_types (skill_name : String)
    (current_modules : List (String × String)) (recently_tried : Finset String)
    (store : Store) (top_performers : List EvalSkill) (s : Suggestion)
    (hs : s ∈ top_performers.foldl
      (absorbStep skill_name current_modules recently_tried store) []) :
    s.type = "absorb" := by
  rcases mem_foldl_of_step
      (absorbStep skill_name current_modules recently_tried store) _
      (fun acc top t ht =>
        mem_absorbStep_type skill_name current_modules recently_tried store
          acc top t ht)
      _ _ _ hs with h | h
  · exact absurd h (List.not_mem_nil s)
  · exact h

theorem mem_mutateSpecList (skill_name : String) (registry : Registry)
    (recently_tried : Finset String) (A : List Suggestion) (s : Suggestion) :
    ∀ cm : List (String × String),
      s ∈ mutateSpecList skill_name registry recently_tried A cm →
      s.type = "mutate" := by
  intro cm
  induction cm with
  | nil => intro hs; exact absurd hs (List.not_mem_nil s)
  | cons p cm ih =>
    intro hs
    rcases List.mem_append.mp hs with h | h
    · rcases List.mem_map.mp h with ⟨v, _, rfl⟩
      rfl
    · exact ih h

theorem mutateInner_foldl_eq (skill_name : String) (recently_tried : Finset String)
    (p : String × String) (A : List Suggestion) :
    ∀ (vs : List String) (M : List Suggestion), vs.Nodup →
      (∀ s ∈ M, s.module = p.1 → s.to_version ∉ vs) →
      vs.foldl (mutateInner skill_name recently_tried p) (A ++ M) =
        A ++ M ++ (vs.filter (specAllowed recently_tried A p)).map
          (mkMutateSugg skill_name p) := by
  intro vs
  induction vs with
  | nil => intro M _ _; simp
  | cons v vs ih =>
    intro M hnd hM
    rcases List.nodup_cons.mp hnd with ⟨hv, hvs⟩
    rw [List.foldl_cons]
    have hMtail : ∀ s ∈ M, s.module = p.1 → s.to_version ∉ vs :=
      fun s hs hm hmem => hM s hs hm (List.mem_cons_of_mem _ hmem)
    have hanyM : M.any (fun s => s.module == p.1 && s.to_version == v) = false := by
      rw [List.any_eq_false]
      intro s hs
      simp only [Bool.and_eq_true, beq_iff_eq, not_and]
      intro hm hv2
      exact hM s hs hm (hv2 ▸ List.mem_cons_self v vs)
    by_cases h1 : (p.1 ++ ":" ++ v) ∈ recently_tried
    · have hhead : mutateInner skill_name recently_tried p (A ++ M) v = A ++ M := by
        simp only [mutateInner]
        rw [if_pos h1]
      rw [hhead, ih M hvs hMtail,
        List.filter_cons_of_neg (by simp [specAllowed, h1])]
    · by_cases h2 : v = p.2
      · have hhead : mutateInner skill_name recently_tried p (A ++ M) v = A ++ M := by
          simp only [mutateInner]
          rw [if_neg h1, if_pos h2]
        rw [hhead, ih M hvs hMtail,
          List.filter_cons_of_neg (by simp [specAllowed, h2])]
      · by_cases h3 :
            ((A ++ M).any fun s => s.module == p.1 && s.to_version == v) = true
        · have hanyA :
              (A.any fun s => s.module == p.1 && s.to_version == v) = true := by
            rw [List.any_append, hanyM, Bool.or_false] at h3
            exact h3
          have hhead : mutateInner skill_name recently_tried p (A ++ M) v =
              A ++ M := by
            simp only [mutateInner]
            rw [if_neg h1, if_neg h2, if_pos h3]
          rw [hhead, ih M hvs hMtail,
            List.filter_cons_of_neg (by simp [specAllowed, hanyA])]
        · have hanyA :
              (A.any fun s => s.module == p.1 && s.to_version == v) = false := by
            rw [List.any_append, hanyM, Bool.or_false] at h3
            simpa using h3
          have hq : specAllowed recently_tried A p v = true := by
            simp [specAllowed, h1, h2, hanyA]
          have hhead : mutateInner skill_name recently_tried p (A ++ M) v =
              A ++ (M ++ [mkMutateSugg skill_name p v]) := by
            simp only [mutateInner]
            rw [if_neg h1, if_neg h2, if_neg h3, List.append_assoc]
          have hMnew : ∀ s ∈ M ++ [mkMutateSugg skill_name p v],
              s.module = p.1 → s.to_version ∉ vs := by
            intro s hs hm
            rcases List.mem_append.mp hs with h | h
            · exact hMtail s h hm
            · rcases List.mem_singleton.mp h with rfl
              simpa [mkMutateSugg] using hv
          rw [hhead, ih (M ++ [mkMutateSugg skill_name p v]) hvs hMnew,
            List.filter_cons_of_pos hq]
          simp [List.append_assoc]

theorem mutateStep_foldl_eq (skill_name : String) (registry : Registry)
    (recently_tried : Finset String) (A : List Suggestion) :
    ∀ (cm : List (String × String)) (M : List Suggestion),
      (cm.map Prod.fst).Nodup →
      (∀ q ∈ cm, (get_module_variants registry q.1).Nodup) →
      (∀ s ∈ M, s.module ∉ cm.map Prod.fst) →
      cm.foldl (mutateStep skill_name registry recently_tried) (A ++ M) =
        A ++ M ++ mutateSpecList skill_name registry recently_tried A cm := by
  intro cm
  induction cm with
  | nil => intro M _ _ _; simp [mutateSpecList]
  | cons p cm ih =>
    intro M hnd hvar hM
    rw [List.map_cons, List.nodup_cons] at hnd
    obtain ⟨hp, htl⟩ := hnd
    rw [List.foldl_cons]
    have hstep : mutateStep skill_name registry recently_tried (A ++ M) p =
        A ++ (M ++ ((get_module_variants registry p.1).filter
          (specAllowed recently_tried A p)).map (mkMutateSugg skill_name p)) := by
      unfold mutateStep
      rw [mutateInner_foldl_eq skill_name recently_tried p A _ M
        (hvar p (List.mem_cons_self p cm))
        (fun s hs hm => absurd (by simp [hm]) (hM s hs))]
      simp [List.append_assoc]
    rw [hstep, ih _ htl (fun q hq => hvar q (List.mem_cons_of_mem p hq)) ?_]
    · simp [mutateSpecList, List.append_assoc]
    · intro s hs
      rcases List.mem_append.mp hs with h | h
      · have := hM s h
        simp only [List.map_cons, List.mem_cons, not_or] at this
        exact this.2
      · rcases List.mem_map.mp h with ⟨v, _, rfl⟩
        simpa [mkMutateSugg] using hp

/-- C6: for an unsuccessful skill (with proper dict key-uniqueness of
the module maps), the suggestion list is the absorb-pass list `A`
followed by exactly the spec-described mutate candidates: for each
module type in use, every registered variant other than the current
one, excluding recently-tried pairs and pairs already absorbed —
deduplication considers only `A`, never earlier mutate suggestions —
and the suggestion selected for application is the head of `A` when
`A` is non-empty, else the head of the whole list. -/
theorem c6_absorb_precede_mutate (skill_name : String) (skill_def : SkillDef)
    (fitness : ℚ) (registry : Registry) (top_performers : List EvalSkill)
    (store : Store)
    (hclass : ¬ (classify_skill fitness = "healthy" ∨
        classify_skill fitness = "top_performer"))
    (hfst : (skill_def.modules.map Prod.fst).Nodup)
    (hvar : ∀ q ∈ skill_def.modules, (get_module_variants registry q.1).Nodup) :
    ∃ A : List Suggestion,
      (∀ s ∈ A, s.type = "absorb") ∧
      suggest_mutations skill_name skill_def fitness registry top_performers
          store =
        A ++ mutateSpecList skill_name registry
          (get_recently_tried_variants skill_def) A skill_def.modules ∧
      (∀ s ∈ mutateSpecList skill_name registry
          (get_recently_tried_variants skill_def) A skill_def.modules,
        s.type = "mutate") ∧
      selectTop (suggest_mutations skill_name skill_def fitness registry
          top_performers store) =
        (if A = [] then
          (mutateSpecList skill_name registry
            (get_recently_tried_variants skill_def) A skill_def.modules).head?
        else A.head?) := by
  set A := top_performers.foldl
    (absorbStep skill_name skill_def.modules
      (get_recently_tried_variants skill_def) store) [] with hAdef
  set N := mutateSpecList skill_name registry
    (get_recently_tried_variants skill_def) A skill_def.modules with hNdef
  have hA : ∀ s ∈ A, s.type = "absorb" := fun s hs =>
    absorbPass_types skill_name skill_def.modules _ store top_performers s hs
  have hN : ∀ s ∈ N, s.type = "mutate" := fun s hs =>
    mem_mutateSpecList skill_name registry _ _ s skill_def.modules hs
  have hEq : suggest_mutations skill_name skill_def fitness registry
      top_performers store = A ++ N := by
    simp only [suggest_mutations]
    rw [if_neg hclass]
    have := mutateStep_foldl_eq skill_name registry
      (get_recently_tried_variants skill_def) A skill_def.modules [] hfst hvar
      (by simp)
    simpa [hAdef, hNdef] using this
  have hfA : (A ++ N).filter (fun s => s.type == "absorb") = A := by
    rw [List.filter_append,
      List.filter_eq_self.mpr (fun s hs => by simp [hA s hs]),
      List.filter_eq_nil_iff.mpr (fun s hs => by simp [hN s hs]),
      List.append_nil]
  have hsel : selectTop (A ++ N) = if A = [] then N.head? else A.head? := by
    unfold selectTop
    rw [hfA]
    cases A with
    | nil => simp
    | cons a A => simp
  exact ⟨A, hA, hEq, hN, by rw [hEq, hsel]⟩

/-- C6 witness: the spec's end-to-end scenario — failing `writer`,
donor `reviewer` — instantiating the decomposition, with both an
absorb and a mutate suggestion present. -/
theorem c6_absorb_precede_mutate_witness :
    ∃ A : List Suggestion,
      (∀ s ∈ A, s.type = "absorb") ∧
      suggest_mutations "writer" sampleWriter (mkRat 3 10) sampleReg sampleTops
          sampleStore =
        A ++ mutateSpecList "writer" sampleReg
          (get_recently_tried_variants sampleWriter) A sampleWriter.modules ∧
      (∀ s ∈ mutateSpecList "writer" sampleReg
          (get_recently_tried_variants sampleWriter) A sampleWriter.modules,
        s.type = "mutate") ∧
      selectTop (suggest_mutations "writer" sampleWriter (mkRat 3 10) sampleReg
          sampleTops sampleStore) =
        (if A = [] then
          (mutateSpecList "writer" sampleReg
            (get_recently_tried_variants sampleWriter) A
            sampleWriter.modules).head?
        else A.head?) :=
  c6_absorb_precede_mutate "writer" sampleWriter (mkRat 3 10) sampleReg
    sampleTops sampleStore (by with_unfolding_all decide) (by decide)
    (by with_unfolding_all decide)

theorem findSub_append_boundary (sub : List Char) (hsub : sub ≠ []) :
    ∀ (h e : List Char),
      (∀ i, i < h.length → ¬ sub.isPrefixOf ((h ++ e).drop i)) →
      sub.isPrefixOf e →
      findSub sub (h ++ e) = some h.length := by
  intro h
  induction h with
  | nil =>
    intro e _ hpre
    cases e with
    | nil =>
      cases sub with
      | nil => exact absurd rfl hsub
      | cons c cs => simp [List.isPrefixOf] at hpre
    | cons c cs =>
      show findSub sub (c :: cs) = some 0
      unfold findSub
      rw [if_pos hpre]
  | cons c h ih =>
    intro e hno hpre
    show findSub sub (c :: (h ++ e)) = some (h.length + 1)
    unfold findSub
    rw [if_neg (by simpa using hno 0 (by simp))]
    rw [ih e (fun i hi => by simpa using hno (i + 1) (by simpa using hi)) hpre]
    rfl

theorem entry_starts_with_sep (version timestamp : String)
    (mutations : List Suggestion) (old_fitness : ℚ) (new_fitness : Option ℚ) :
    ("\n## ".toList).isPrefixOf
      (changelogEntry version timestamp mutations old_fitness
        new_fitness).toList := by
  rw [List.isPrefixOf_iff_prefix]
  unfold changelogEntry
  rw [show ("\n## v" ++ version ++ " (" ++ timestamp ++ ")\n\n" ++
        "**Fitness:** " ++ fmt2 old_fitness ++
        fitnessDelta new_fitness old_fitness ++ "\n\n" ++ "**Mutations:**\n" ++
        mutationLines mutations ++ "\n---\n").toList =
      "\n## ".toList ++ (['v'] ++ (version ++ " (" ++ timestamp ++ ")\n\n" ++
        "**Fitness:** " ++ fmt2 old_fitness ++
        fitnessDelta new_fitness old_fitness ++ "\n\n" ++ "**Mutations:**\n" ++
        mutationLines mutations ++ "\n---\n").toList) from by
    simp [toList_append, List.append_assoc]]
  exact List.prefix_append _ _

/-- C9: when no changelog exists, the first write synthesizes the
header and appends the entry; a second write prepends its entry at the
start of the first one, so the second-written entry appears before the
first-written entry and both appear after the header.  The two
hypotheses state that the header region of the document contains no
occurrence of the `"\n## "` section separator (true of every skill
name without embedded newlines). -/
theorem c9_changelog_prepend (skill_name : String) (store1 store2 : Store)
    (m1 m2 : List Suggestion) (f1 f2 : ℚ) (n1 n2 : Option ℚ) (t1 t2 : String)
    (hH : strFind (changelogHeader skill_name) "\n## " = none)
    (hB : ∀ i, i < (changelogHeader skill_name).toList.length →
      ¬ ("\n## ".toList).isPrefixOf
        ((write_changelog none skill_name store1 m1 f1 n1 t1).toList.drop i)) :
    write_changelog none skill_name store1 m1 f1 n1 t1 =
      changelogHeader skill_name ++
        changelogEntry (versionIn store1 skill_name) t1 m1 f1 n1 ∧
    write_changelog (some (write_changelog none skill_name store1 m1 f1 n1 t1))
        skill_name store2 m2 f2 n2 t2 =
      changelogHeader skill_name ++
        changelogEntry (versionIn store2 skill_name) t2 m2 f2 n2 ++
        changelogEntry (versionIn store1 skill_name) t1 m1 f1 n1 := by
  have h1 : write_changelog none skill_name store1 m1 f1 n1 t1 =
      changelogHeader skill_name ++
        changelogEntry (versionIn store1 skill_name) t1 m1 f1 n1 := by
    simp only [write_changelog]
    rw [hH]
  refine ⟨h1, ?_⟩
  rw [h1] at hB
  have hfind : strFind
      (changelogHeader skill_name ++
        changelogEntry (versionIn store1 skill_name) t1 m1 f1 n1) "\n## " =
      some (changelogHeader skill_name).toList.length := by
    show findSub ("\n## ".toList)
      ((changelogHeader skill_name).toList ++
        (changelogEntry (versionIn store1 skill_name) t1 m1 f1 n1).toList) =
      some (changelogHeader skill_name).toList.length
    exact findSub_append_boundary ("\n## ".toList) (by decide) _ _
      (fun i hi => hB i hi)
      (entry_starts_with_sep (versionIn store1 skill_name) t1 m1 f1 n1)
  rw [h1]
  simp only [write_changelog]
  rw [hfind]
  show strTake _ _ ++ _ ++ strDrop _ _ = _
  unfold strTake strDrop
  rw [show (changelogHeader skill_name ++
        changelogEntry (versionIn store1 skill_name) t1 m1 f1 n1).toList =
      (changelogHeader skill_name).toList ++
        (changelogEntry (versionIn store1 skill_name) t1 m1 f1 n1).toList from
    rfl]
  rw [List.take_left, List.drop_left, mk_toList, mk_toList]

/-- C9 witness: two successive writes for `writer` yield exactly
header, second entry, first entry. -/
theorem c9_changelog_prepend_witness :
    write_changelog none "writer" sampleVetStore [sampleSugg] (mkRat 3 10)
        (some (mkRat 35 100)) "T1" =
      changelogHeader "writer" ++
        changelogEntry (versionIn sampleVetStore "writer") "T1" [sampleSugg]
          (mkRat 3 10) (some (mkRat 35 100)) ∧
    write_changelog (some (write_changelog none "writer" sampleVetStore
        [sampleSugg] (mkRat 3 10) (some (mkRat 35 100)) "T1")) "writer"
        sampleVetStore [sampleSugg] (mkRat 35 100) none "T2" =
      changelogHeader "writer" ++
        changelogEntry (versionIn sampleVetStore "writer") "T2" [sampleSugg]
          (mkRat 35 100) none ++
        changelogEntry (versionIn sampleVetStore "writer") "T1" [sampleSugg]
          (mkRat 3 10) (some (mkRat 35 100)) :=
  c9_changelog_prepend "writer" sampleVetStore sampleVetStore [sampleSugg]
    [sampleSugg] (mkRat 3 10) (mkRat 35 100) (some (mkRat 35 100)) none
    "T1" "T2" (by decide) (by with_unfolding_all decide)

/-- C7: when a skill's mutation applies but its recompilation fails,
the apply loop leaves the mutated definition persisted, records the
compiler invocation, reports a recompile failure for that skill only,
writes no changelog entry, and continues with the remaining skills. -/
theorem c7_recompile_failure_no_changelog (env : Env) (tops : List EvalSkill)
    (w : World) (sd : EvalSkill) (skill_def : SkillDef) (sugg : Suggestion)
    (store' : Store)
    (hclass : classify_skill sd.fitness = "underperforming" ∨
      classify_skill sd.fitness = "failing")
    (hdef : w.store.lookup sd.skill = some skill_def)
    (hsel : selectTop (suggest_mutations sd.skill skill_def sd.fitness
      env.registry tops w.store) = some sugg)
    (happly : apply_mutation w.store sd.skill sugg.module sugg.to_version
      env.now = some (true, store'))
    (hcomp : env.compileOk sd.skill = false) :
    applyStep env tops w sd =
      .ok { w with store := store',
                   compileCalls := w.compileCalls ++ [sd.skill],
                   log := w.log ++ [.recompileFailed sd.skill] } ∧
    ∀ rest, applyLoop env tops w (sd :: rest) =
      applyLoop env tops
        { w with store := store',
                 compileCalls := w.compileCalls ++ [sd.skill],
                 log := w.log ++ [.recompileFailed sd.skill] } rest := by
  have hne : suggest_mutations sd.skill skill_def sd.fitness env.registry tops
      w.store ≠ [] := by
    intro h0
    rw [h0] at hsel
    simp [selectTop] at hsel
  have hstep : applyStep env tops w sd =
      .ok { w with store := store',
                   compileCalls := w.compileCalls ++ [sd.skill],
                   log := w.log ++ [.recompileFailed sd.skill] } := by
    simp only [applyStep]
    rw [if_pos hclass]
    simp only [hdef]
    rw [if_neg hne]
    simp only [hsel, happly, recompile_skill, hcomp]
    rfl
  exact ⟨hstep, fun rest => by
    simp only [applyLoop]
    rw [hstep]⟩

set_option maxRecDepth 2048 in
/-- C7 witness: failing `writer` absorbs `validation: v3`; the
compiler rejects it; the mutated store persists, no changelog
appears, and the loop proceeds. -/
theorem c7_recompile_failure_no_changelog_witness :
    applyStep sampleEnvCompileFail sampleTops sampleWorld
        ⟨"writer", mkRat 3 10, 5⟩ =
      .ok { sampleWorld with
            store := sampleStoreMut,
            compileCalls := sampleWorld.compileCalls ++ ["writer"],
            log := sampleWorld.log ++ [.recompileFailed "writer"] } ∧
    ∀ rest, applyLoop sampleEnvCompileFail sampleTops sampleWorld
        (⟨"writer", mkRat 3 10, 5⟩ :: rest) =
      applyLoop sampleEnvCompileFail sampleTops
        { sampleWorld with
          store := sampleStoreMut,
          compileCalls := sampleWorld.compileCalls ++ ["writer"],
          log := sampleWorld.log ++ [.recompileFailed "writer"] } rest :=
  c7_recompile_failure_no_changelog sampleEnvCompileFail sampleTops sampleWorld
    ⟨"writer", mkRat 3 10, 5⟩ sampleWriter sampleSugg sampleStoreMut
    (Or.inr (by with_unfolding_all rfl)) (by with_unfolding_all rfl)
    (by with_unfolding_all rfl) (by with_unfolding_all rfl) rfl

/-- C8: when the evaluator invocation fails — non-zero exit (error
report) or unparseable output (raised exception) — the whole cycle
stops before any mutation: the skill store, the changelog directory,
the snapshot directory and the compiler-invocation list are all
unchanged. -/
theorem c8_eval_failure_aborts_cycle (env : Env) (w : World)
    (h : (env.evalOracle w.evalCalls).exitOk = false ∨
         (env.evalOracle w.evalCalls).parsed = none) :
    ∃ w' : World,
      (cmd_cycle env w = .ok w' ∨ cmd_cycle env w = .error w') ∧
      w'.store = w.store ∧ w'.changelogs = w.changelogs ∧
      w'.compileCalls = w.compileCalls ∧ w'.snapshots = w.snapshots := by
  refine ⟨{ w with evalCalls := w.evalCalls + 1 }, ?_, rfl, rfl, rfl, rfl⟩
  unfold cmd_cycle runEvalStep run_evaluate
  rcases h with h | h
  · simp [h]
  · cases hex : (env.evalOracle w.evalCalls).exitOk
    · simp [hex]
    · simp [hex, h]

/-- C8 witness: a non-zero-exit evaluator leaves the initial world
untouched. -/
theorem c8_eval_failure_aborts_cycle_witness :
    ∃ w' : World,
      (cmd_cycle sampleEnvEvalFail sampleWorld = .ok w' ∨
       cmd_cycle sampleEnvEvalFail sampleWorld = .error w') ∧
      w'.store = sampleWorld.store ∧ w'.changelogs = sampleWorld.changelogs ∧
      w'.compileCalls = sampleWorld.compileCalls ∧
      w'.snapshots = sampleWorld.snapshots :=
  c8_eval_failure_aborts_cycle sampleEnvEvalFail sampleWorld (Or.inl rfl)

end Darwin
